import Mathlib

/-!
Shallow embedding of the deferred command buffer of `bevy_ecs`
(`src/crates/bevy_ecs/src/commands.rs`): the `Command` union, the writer
operations, the single-threaded buffer `CommandsInternal`, the shared handle
`Commands`, and the `apply` drain.  The storage collaborators (`World`,
`Resources`, entity-identifier allocation) live outside the given sources and
are modelled from the spec where noted.  Rust panics (`unwrap` / `expect`)
are embedded as `Except` errors; the `Arc<Mutex<_>>` of the shared handle is
embedded as direct ownership of the underlying buffer, since every handle
operation is a single lock-push-unlock critical section.
-/

namespace BevyEcs

/-- Modelled from the spec: an `Entity` is an opaque stable identifier,
reservable before storage contains it; allocation is an atomic counter
independent of the storage table. -/
abbrev Entity := Nat

/-- Modelled from the spec: opaque identifier for one system instance. -/
abbrev SystemId := Nat

/-- A tag standing for a Rust component / resource type. -/
abbrev TypeTag := Nat

/-- Allocator state of the entity-identifier counter. -/
abbrev Alloc := Nat

/-- Modelled from the spec: identifier allocation as an atomic counter,
fully independent of the storage table. -/
def allocEntity (a : Alloc) : Entity × Alloc := (a, a + 1)

/-- A component value: its type tag and its payload. -/
structure ComponentVal where
  ty : TypeTag
  val : Nat
  deriving DecidableEq, Repr

/-- A bundle: a fixed heterogeneous set of component values inserted
together, in order. -/
abbrev Bundle := List ComponentVal

/-- Generic association-list overwrite: drop any binding of key `k`, append
the new binding at the end. -/
def alSet {κ α : Type} [DecidableEq κ] : List (κ × α) → κ → α → List (κ × α)
  | [], k, v => [(k, v)]
  | p :: l, k, v => if p.1 = k then alSet l k v else p :: alSet l k v

/-- Generic association-list lookup: first binding of key `k`. -/
def alGet {κ α : Type} [DecidableEq κ] : List (κ × α) → κ → Option α
  | [], _ => none
  | p :: l, k => if p.1 = k then some p.2 else alGet l k

/-- A row of component values for one entity, keyed by type: inserting a
component overwrites the previous value of the same type. -/
abbrev Row := List (TypeTag × Nat)

/-- Insert one component value into a row (type-keyed overwrite). -/
def Row.setComp (row : Row) (c : ComponentVal) : Row :=
  alSet row c.ty c.val

/-- Look up the component of type `t` in a row. -/
def Row.getComp (row : Row) (t : TypeTag) : Option Nat :=
  alGet row t

/-- Insert every component of a bundle into a row, in bundle order. -/
def Row.insertAll (row : Row) (b : Bundle) : Row :=
  b.foldl Row.setComp row

/-- Modelled from the spec: the component storage the commands are applied
to — a table from entity identifiers to rows of component values. -/
structure World where
  entities : List (Entity × Row)
  deriving DecidableEq, Repr

/-- Storage lookup; reports `none` for a reserved-but-not-spawned
identifier. -/
def World.lookup (w : World) (e : Entity) : Option Row :=
  alGet w.entities e

/-- Overwrite the row stored for entity `e`. -/
def World.setRow (w : World) (e : Entity) (row : Row) : World :=
  ⟨alSet w.entities e row⟩

/-- The error a fatal apply-time condition raises: a `Despawn` / `Insert` /
`InsertOne` whose target entity is absent from storage.  In the source this
is the `unwrap` panic of `Despawn::write` and `Insert::write` /
`InsertOne::write`. -/
inductive ApplyError where
  | applyTargetMissing
  deriving DecidableEq, Repr

/-- The error a cursor-dependent enqueue raises when no spawn preceded it.
In the source this is the `expect` panic of `CommandsInternal::with` /
`with_bundle`. -/
inductive EnqueueError where
  | missingEntityContext
  deriving DecidableEq, Repr

/-- Modelled from the spec: `spawn_as_entity(entity, bundle)` inserts a new
row under a caller-supplied, already-reserved identifier with the bundle's
components. -/
def World.spawn_as_entity (w : World) (e : Entity) (b : Bundle) : World :=
  w.setRow e (Row.insertAll [] b)

/-- Modelled from the spec: `spawn(bundle)` allocates a fresh identifier and
behaves as `spawn_as_entity` with it. -/
def World.spawn (w : World) (a : Alloc) (b : Bundle) :
    World × Entity × Alloc :=
  ((w.spawn_as_entity (allocEntity a).1 b), (allocEntity a).1, (allocEntity a).2)

/-- Modelled from the spec: `spawn_batch(bundles)` applies `spawn` for each
bundle of the sequence in order, returning the spawned entities in order. -/
def World.spawn_batch (w : World) (a : Alloc) :
    List Bundle → World × List Entity × Alloc
  | [] => (w, [], a)
  | b :: bs =>
    let s1 := w.spawn a b
    let s2 := World.spawn_batch s1.1 s1.2.2 bs
    (s2.1, s1.2.1 :: s2.2.1, s2.2.2)

/-- Modelled from the spec: `despawn(entity)` removes the row of `entity`;
it is an error when `entity` is absent from storage. -/
def World.despawn (w : World) (e : Entity) : Except ApplyError World :=
  match w.lookup e with
  | some _ => .ok ⟨w.entities.filter (fun p => decide (p.1 ≠ e))⟩
  | none => .error .applyTargetMissing

/-- Modelled from the spec: `insert(entity, bundle)` adds or overwrites all
components of the bundle on `entity`; an error when `entity` is absent. -/
def World.insert (w : World) (e : Entity) (b : Bundle) :
    Except ApplyError World :=
  match w.lookup e with
  | some row => .ok (w.setRow e (row.insertAll b))
  | none => .error .applyTargetMissing

/-- A resource value: its type tag and its payload. -/
structure ResourceVal where
  ty : TypeTag
  val : Nat
  deriving DecidableEq, Repr

/-- Modelled from the spec: the resource registry — process-wide singletons
keyed by type, and system-local singletons keyed by `(SystemId, type)`. -/
structure Resources where
  globals : List (TypeTag × Nat)
  locals : List ((SystemId × TypeTag) × Nat)
  deriving DecidableEq, Repr

/-- Modelled from the spec: overwrite the process-wide singleton of the
value's type. -/
def Resources.insert (r : Resources) (v : ResourceVal) : Resources :=
  ⟨alSet r.globals v.ty v.val, r.locals⟩

/-- Modelled from the spec: overwrite the singleton scoped to
`(system_id, type)`, independent of the global one. -/
def Resources.insert_local (r : Resources) (id : SystemId) (v : ResourceVal) :
    Resources :=
  ⟨r.globals, alSet r.locals (id, v.ty) v.val⟩

/-- Retrieve the process-wide singleton of type `t`. -/
def Resources.get (r : Resources) (t : TypeTag) : Option Nat :=
  alGet r.globals t

/-- Retrieve the singleton scoped to `(id, t)`. -/
def Resources.get_local (r : Resources) (id : SystemId) (t : TypeTag) :
    Option Nat :=
  alGet r.locals (id, t)

/-- The world-mutating operation set: the closed union of the `WorldWriter`
implementors of the source (`Spawn`, `SpawnAsEntity`, `SpawnBatch`,
`Despawn`, `Insert`, `InsertOne`), each carrying its captured payload. -/
inductive WorldWriter where
  | spawnW (components : Bundle)
  | spawnAsEntity (entity : Entity) (components : Bundle)
  | spawnBatch (components_iter : List Bundle)
  | despawnW (entity : Entity)
  | insertW (entity : Entity) (components : Bundle)
  | insertOne (entity : Entity) (component : ComponentVal)
  deriving DecidableEq, Repr

/-- The resource-mutating operation set: the `ResourcesWriter` implementors
of the source (`InsertResource`, `InsertLocalResource`). -/
inductive ResourcesWriter where
  | insertResource (resource : ResourceVal)
  | insertLocalResource (system_id : SystemId) (resource : ResourceVal)
  deriving DecidableEq, Repr

/-- `Command`: the tagged union `WriteWorld` / `WriteResources` of the
source. -/
inductive Command where
  | writeWorld (w : WorldWriter)
  | writeResources (r : ResourcesWriter)
  deriving DecidableEq, Repr

/-- The `write` step of each `WorldWriter` implementor, from the source:
`Spawn` calls `world.spawn`, `SpawnAsEntity` calls `world.spawn_as_entity`,
`SpawnBatch` calls `world.spawn_batch`, `Despawn` calls
`world.despawn(..).unwrap()`, `Insert` calls `world.insert(..).unwrap()`,
`InsertOne` calls `world.insert(entity, (component,)).unwrap()`. -/
def WorldWriter.write : WorldWriter → World → Alloc →
    Except ApplyError (World × Alloc)
  | .spawnW b, w, a => .ok ((w.spawn a b).1, (w.spawn a b).2.2)
  | .spawnAsEntity e b, w, a => .ok (w.spawn_as_entity e b, a)
  | .spawnBatch bs, w, a =>
    .ok ((w.spawn_batch a bs).1, (w.spawn_batch a bs).2.2)
  | .despawnW e, w, a => (w.despawn e).map (fun w' => (w', a))
  | .insertW e b, w, a => (w.insert e b).map (fun w' => (w', a))
  | .insertOne e c, w, a => (w.insert e [c]).map (fun w' => (w', a))

/-- The `write` step of each `ResourcesWriter` implementor, from the
source. -/
def ResourcesWriter.write : ResourcesWriter → Resources → Resources
  | .insertResource v, r => r.insert v
  | .insertLocalResource id v, r => r.insert_local id v

/-- Dispatch of one `Command` inside `apply`, from the source: `WriteWorld`
commands go against the world, `WriteResources` commands against the
resources. -/
def Command.dispatch : Command → World → Resources → Alloc →
    Except ApplyError (World × Resources × Alloc)
  | .writeWorld wr, w, r, a => (wr.write w a).map (fun p => (p.1, r, p.2))
  | .writeResources rw, w, r, _a => .ok (w, rw.write r, _a)

/-- `CommandsInternal` of the source: the ordered command list and the
"most recently spawned entity" cursor. -/
structure CommandsInternal where
  commands : List Command := []
  current_entity : Option Entity := none
  deriving DecidableEq, Repr

/-- `CommandsInternal::spawn_as_entity`: set the cursor to the given entity
and push a `SpawnAsEntity` command. -/
def CommandsInternal.spawn_as_entity (cb : CommandsInternal) (e : Entity)
    (b : Bundle) : CommandsInternal :=
  { commands :=
      cb.commands ++ [Command.writeWorld (WorldWriter.spawnAsEntity e b)],
    current_entity := some e }

/-- `CommandsInternal::spawn`: allocate a fresh entity identifier
(`Entity::new()`), then `spawn_as_entity` with it. -/
def CommandsInternal.spawn (cb : CommandsInternal) (a : Alloc) (b : Bundle) :
    CommandsInternal × Alloc :=
  (cb.spawn_as_entity (allocEntity a).1 b, (allocEntity a).2)

/-- `CommandsInternal::with_bundle`: push an `Insert` targeting the cursor
entity; the `expect` panic when the cursor is unset is embedded as an
`Except` error, raised before anything is pushed. -/
def CommandsInternal.with_bundle (cb : CommandsInternal) (b : Bundle) :
    Except EnqueueError CommandsInternal :=
  match cb.current_entity with
  | none => .error .missingEntityContext
  | some e =>
    .ok { cb with commands :=
      cb.commands ++ [Command.writeWorld (WorldWriter.insertW e b)] }

/-- `CommandsInternal::with` (named `withComp` here because `with` is a Lean
keyword): push an `InsertOne` targeting the cursor entity; the `expect`
panic when the cursor is unset is embedded as an `Except` error. -/
def CommandsInternal.withComp (cb : CommandsInternal) (c : ComponentVal) :
    Except EnqueueError CommandsInternal :=
  match cb.current_entity with
  | none => .error .missingEntityContext
  | some e =>
    .ok { cb with commands :=
      cb.commands ++ [Command.writeWorld (WorldWriter.insertOne e c)] }

/-- `Commands` of the source: the shared handle.  The `Arc<Mutex<_>>` is
embedded as direct ownership of the `CommandsInternal`; each handle method
is one lock-push-unlock critical section. -/
structure Commands where
  commands : CommandsInternal := {}
  deriving DecidableEq, Repr

/-- `Commands::spawn_as_entity`: lock and delegate to the buffer. -/
def Commands.spawn_as_entity (c : Commands) (e : Entity) (b : Bundle) :
    Commands :=
  ⟨c.commands.spawn_as_entity e b⟩

/-- `Commands::spawn`: allocate a fresh entity identifier, then
`spawn_as_entity` with it. -/
def Commands.spawn (c : Commands) (a : Alloc) (b : Bundle) :
    Commands × Alloc :=
  (c.spawn_as_entity (allocEntity a).1 b, (allocEntity a).2)

/-- `Commands::spawn_batch`: push one `SpawnBatch` command carrying the
whole bundle sequence. -/
def Commands.spawn_batch (c : Commands) (bs : List Bundle) : Commands :=
  ⟨{ c.commands with commands :=
      c.commands.commands ++
        [Command.writeWorld (WorldWriter.spawnBatch bs)] }⟩

/-- `Commands::despawn`: push one `Despawn` command. -/
def Commands.despawn (c : Commands) (e : Entity) : Commands :=
  ⟨{ c.commands with commands :=
      c.commands.commands ++ [Command.writeWorld (WorldWriter.despawnW e)] }⟩

/-- `Commands::with`: lock and delegate to the buffer's cursor-dependent
`with`. -/
def Commands.withComp (c : Commands) (comp : ComponentVal) :
    Except EnqueueError Commands :=
  (c.commands.withComp comp).map (fun cb => ⟨cb⟩)

/-- `Commands::with_bundle`: lock and delegate to the buffer's
cursor-dependent `with_bundle`. -/
def Commands.with_bundle (c : Commands) (b : Bundle) :
    Except EnqueueError Commands :=
  (c.commands.with_bundle b).map (fun cb => ⟨cb⟩)

/-- `Commands::insert`: push one `Insert` command. -/
def Commands.insert (c : Commands) (e : Entity) (b : Bundle) : Commands :=
  ⟨{ c.commands with commands :=
      c.commands.commands ++ [Command.writeWorld (WorldWriter.insertW e b)] }⟩

/-- `Commands::insert_one`: push one `InsertOne` command. -/
def Commands.insert_one (c : Commands) (e : Entity) (comp : ComponentVal) :
    Commands :=
  ⟨{ c.commands with commands :=
      c.commands.commands ++
        [Command.writeWorld (WorldWriter.insertOne e comp)] }⟩

/-- `Commands::insert_resource`: push one `InsertResource` command. -/
def Commands.insert_resource (c : Commands) (v : ResourceVal) : Commands :=
  ⟨{ c.commands with commands :=
      c.commands.commands ++
        [Command.writeResources (ResourcesWriter.insertResource v)] }⟩

/-- `Commands::insert_local_resource`: push one `InsertLocalResource`
command. -/
def Commands.insert_local_resource (c : Commands) (sid : SystemId)
    (v : ResourceVal) : Commands :=
  ⟨{ c.commands with commands :=
      c.commands.commands ++
        [Command.writeResources
          (ResourcesWriter.insertLocalResource sid v)] }⟩

/-- The drain loop of `Commands::apply`: remove the earliest-enqueued
command, dispatch it, repeat; the second component is what remains in the
buffer when the loop stops (empty on success, the unprocessed suffix when a
dispatch fails fatally). -/
def applyDrain : List Command → World → Resources → Alloc →
    Except ApplyError (World × Resources × Alloc) × List Command
  | [], w, r, a => (.ok (w, r, a), [])
  | cmd :: rest, w, r, a =>
    match cmd.dispatch w r a with
    | .ok s => applyDrain rest s.1 s.2.1 s.2.2
    | .error err => (.error err, rest)

/-- `Commands::apply`: lock the buffer and drain it in enqueue order,
dispatching `WriteWorld` commands against the world and `WriteResources`
commands against the resources.  The returned `Commands` is the post-state
of the shared buffer (the cursor is untouched by the drain). -/
def Commands.apply (c : Commands) (w : World) (r : Resources) (a : Alloc) :
    Except ApplyError (World × Resources × Alloc) × Commands :=
  ((applyDrain c.commands.commands w r a).1,
   ⟨{ c.commands with
        commands := (applyDrain c.commands.commands w r a).2 }⟩)

/-- The fatal-at-apply condition of §7: the world-writer is a `Despawn`,
`Insert` or `InsertOne` whose target entity is absent from the given
storage. -/
def WorldWriter.fatalOn (wr : WorldWriter) (w : World) : Prop :=
  match wr with
  | .despawnW e => w.lookup e = none
  | .insertW e _ => w.lookup e = none
  | .insertOne e _ => w.lookup e = none
  | _ => False

/-! ### Association-list lemmas -/

theorem alGet_alSet_same {κ α : Type} [DecidableEq κ] (l : List (κ × α))
    (k : κ) (v : α) : alGet (alSet l k v) k = some v := by
  induction l with
  | nil => simp [alGet, alSet]
  | cons p l ih =>
    by_cases hp : p.1 = k <;> simp [alGet, alSet, hp, ih]

theorem alGet_alSet_ne {κ α : Type} [DecidableEq κ] (l : List (κ × α))
    (k k' : κ) (v : α) (h : k' ≠ k) :
    alGet (alSet l k v) k' = alGet l k' := by
  induction l with
  | nil => simp [alGet, alSet, Ne.symm h]
  | cons p l ih =>
    by_cases hp : p.1 = k
    · have hq : ¬ p.1 = k' := by rw [hp]; exact Ne.symm h
      simp [alGet, alSet, hp, hq, ih, Ne.symm h]
    · by_cases hq : p.1 = k' <;> simp [alGet, alSet, hp, hq, ih, h, Ne.symm h]

theorem Row.getComp_setComp_same (row : Row) (c : ComponentVal) :
    (row.setComp c).getComp c.ty = some c.val :=
  alGet_alSet_same row c.ty c.val

theorem Row.getComp_setComp_ne (row : Row) (c : ComponentVal) (t : TypeTag)
    (h : t ≠ c.ty) : (row.setComp c).getComp t = row.getComp t :=
  alGet_alSet_ne row c.ty t c.val h

theorem Row.getComp_insertAll_not_mem (row : Row) (b : Bundle) (t : TypeTag)
    (h : t ∉ b.map ComponentVal.ty) :
    (row.insertAll b).getComp t = row.getComp t := by
  induction b generalizing row with
  | nil => rfl
  | cons c cs ih =>
    simp only [List.map_cons, List.mem_cons, not_or] at h
    rw [show Row.insertAll row (c :: cs) = Row.insertAll (row.setComp c) cs from rfl]
    rw [ih _ h.2, Row.getComp_setComp_ne _ _ _ h.1]

theorem Row.getComp_insertAll_mem (row : Row) (b : Bundle) (c : ComponentVal)
    (hnd : (b.map ComponentVal.ty).Nodup) (hc : c ∈ b) :
    (row.insertAll b).getComp c.ty = some c.val := by
  induction b generalizing row with
  | nil => cases hc
  | cons c0 cs ih =>
    simp only [List.map_cons, List.nodup_cons] at hnd
    rw [show Row.insertAll row (c0 :: cs) = Row.insertAll (row.setComp c0) cs from rfl]
    rcases List.mem_cons.mp hc with hc0 | hcs
    · subst hc0
      rw [Row.getComp_insertAll_not_mem _ _ _ hnd.1]
      exact Row.getComp_setComp_same _ _
    · exact ih _ hnd.2 hcs

theorem World.lookup_setRow_same (w : World) (e : Entity) (row : Row) :
    (w.setRow e row).lookup e = some row :=
  alGet_alSet_same w.entities e row

theorem World.lookup_setRow_ne (w : World) (e e' : Entity) (row : Row)
    (h : e' ≠ e) : (w.setRow e row).lookup e' = w.lookup e' :=
  alGet_alSet_ne w.entities e e' row h

/-! ### Drain-loop lemmas -/

theorem applyDrain_fst_eq_foldlM (cs : List Command) (w : World)
    (r : Resources) (a : Alloc) :
    (applyDrain cs w r a).1 =
      cs.foldlM (fun s cmd => Command.dispatch cmd s.1 s.2.1 s.2.2) (w, r, a) := by
  induction cs generalizing w r a with
  | nil => rfl
  | cons cmd rest ih =>
    rw [List.foldlM_cons]
    cases h : cmd.dispatch w r a with
    | ok s =>
      simp only [applyDrain, h]
      rw [ih s.1 s.2.1 s.2.2]
      rfl
    | error err => simp only [applyDrain, h]; rfl

theorem applyDrain_fst_ok_snd_nil (cs : List Command) (w : World)
    (r : Resources) (a : Alloc) (s : World × Resources × Alloc)
    (h : (applyDrain cs w r a).1 = .ok s) : (applyDrain cs w r a).2 = [] := by
  induction cs generalizing w r a with
  | nil => rfl
  | cons cmd rest ih =>
    cases hd : cmd.dispatch w r a with
    | ok s' =>
      simp only [applyDrain, hd] at h ⊢
      exact ih _ _ _ h
    | error err =>
      simp only [applyDrain, hd] at h
      cases h

theorem applyDrain_append_ok (cs1 cs2 : List Command) (w : World)
    (r : Resources) (a : Alloc) (w' : World) (r' : Resources) (a' : Alloc)
    (h : (applyDrain cs1 w r a).1 = .ok (w', r', a')) :
    applyDrain (cs1 ++ cs2) w r a = applyDrain cs2 w' r' a' := by
  induction cs1 generalizing w r a with
  | nil =>
    simp only [applyDrain] at h
    cases h
    rfl
  | cons cmd rest ih =>
    cases hd : cmd.dispatch w r a with
    | ok s =>
      simp only [applyDrain, hd] at h
      rw [List.cons_append]
      simp only [applyDrain, hd]
      exact ih _ _ _ h
    | error err =>
      simp only [applyDrain, hd] at h
      cases h

theorem applyDrain_append_fail (cs1 cs2 : List Command) (cmd : Command)
    (w : World) (r : Resources) (a : Alloc) (w' : World) (r' : Resources)
    (a' : Alloc) (err : ApplyError)
    (h1 : (applyDrain cs1 w r a).1 = .ok (w', r', a'))
    (h2 : cmd.dispatch w' r' a' = .error err) :
    applyDrain (cs1 ++ cmd :: cs2) w r a = (.error err, cs2) := by
  rw [applyDrain_append_ok cs1 (cmd :: cs2) w r a w' r' a' h1]
  simp only [applyDrain, h2]

/-! ### spawn_batch lemmas -/

theorem spawn_batch_entities (w : World) (a : Alloc) (bs : List Bundle) :
    (w.spawn_batch a bs).2.1 = List.range' a bs.length := by
  induction bs generalizing w a with
  | nil => rfl
  | cons b bs ih =>
    simp [World.spawn_batch, World.spawn, allocEntity, List.range'_succ, ih]

theorem spawn_batch_lookup_of_ne (w : World) (a : Alloc) (bs : List Bundle)
    (e : Entity) (h : ∀ j, j < bs.length → a + j ≠ e) :
    (w.spawn_batch a bs).1.lookup e = w.lookup e := by
  induction bs generalizing w a with
  | nil => rfl
  | cons b bs ih =>
    have h0 : e ≠ a := by
      intro he
      apply h 0 (Nat.succ_pos _)
      rw [he, Nat.add_zero]
    have h' : ∀ j, j < bs.length → (a + 1) + j ≠ e := by
      intro j hj he
      apply h (j + 1) (Nat.succ_lt_succ hj)
      rw [← he, Nat.add_assoc, Nat.add_comm 1 j]
    rw [show (w.spawn_batch a (b :: bs)).1
        = ((w.spawn a b).1.spawn_batch (w.spawn a b).2.2 bs).1 from rfl]
    rw [show (w.spawn a b).2.2 = a + 1 from rfl]
    rw [ih _ _ h']
    exact World.lookup_setRow_ne _ _ _ _ h0

theorem spawn_batch_lookup (w : World) (a : Alloc) (bs : List Bundle)
    (i : Nat) (hi : i < bs.length) :
    (w.spawn_batch a bs).1.lookup (a + i)
      = some (Row.insertAll [] (bs.get ⟨i, hi⟩)) := by
  induction bs generalizing w a i with
  | nil => cases hi
  | cons b bs ih =>
    cases i with
    | zero =>
      have hne : ∀ j, j < bs.length → (a + 1) + j ≠ a + 0 := by
        intro j hj he
        rw [Nat.add_zero] at he
        exact absurd he (Nat.ne_of_gt
          (Nat.lt_of_lt_of_le (Nat.lt_succ_self a) (Nat.le_add_right _ j)))
      rw [show (w.spawn_batch a (b :: bs)).1
          = ((w.spawn a b).1.spawn_batch (w.spawn a b).2.2 bs).1 from rfl]
      rw [show (w.spawn a b).2.2 = a + 1 from rfl]
      rw [spawn_batch_lookup_of_ne _ _ _ _ hne]
      rw [show (w.spawn a b).1 = w.setRow a (Row.insertAll [] b) from rfl]
      rw [Nat.add_zero]
      exact World.lookup_setRow_same w a (Row.insertAll [] b)
    | succ i' =>
      have hi' : i' < bs.length := Nat.lt_of_succ_lt_succ hi
      rw [show (w.spawn_batch a (b :: bs)).1
          = ((w.spawn a b).1.spawn_batch (w.spawn a b).2.2 bs).1 from rfl]
      rw [show (w.spawn a b).2.2 = a + 1 from rfl]
      rw [show a + (i' + 1) = (a + 1) + i' by
        rw [Nat.add_assoc, Nat.add_comm 1 i']]
      exact ih _ _ _ hi'

theorem alGet_eq_none_of_forall_ne {κ α : Type} [DecidableEq κ]
    (l : List (κ × α)) (k : κ) (h : ∀ p ∈ l, p.1 ≠ k) : alGet l k = none := by
  induction l with
  | nil => rfl
  | cons p l ih =>
    simp [alGet, h p (by simp), ih fun q hq => h q (by simp [hq])]

theorem lookup_none_of_lt_alloc (w : World) (a : Alloc) (e : Entity)
    (hw : ∀ p ∈ w.entities, p.1 < a) (he : a ≤ e) : w.lookup e = none :=
  alGet_eq_none_of_forall_ne w.entities e
    (fun p hp => Nat.ne_of_lt (Nat.lt_of_lt_of_le (hw p hp) he))

theorem dispatch_error_of_fatalOn (wr : WorldWriter) (w : World)
    (r : Resources) (a : Alloc) (h : wr.fatalOn w) :
    (Command.writeWorld wr).dispatch w r a = .error .applyTargetMissing := by
  cases wr with
  | despawnW e =>
    have h' : w.lookup e = none := h
    simp [Command.dispatch, WorldWriter.write, World.despawn, h', Except.map]
  | insertW e b =>
    have h' : w.lookup e = none := h
    simp [Command.dispatch, WorldWriter.write, World.insert, h', Except.map]
  | insertOne e comp =>
    have h' : w.lookup e = none := h
    simp [Command.dispatch, WorldWriter.write, World.insert, h', Except.map]
  | spawnW b => exact h.elim
  | spawnAsEntity e b => exact h.elim
  | spawnBatch bs => exact h.elim

/-! ### Claim theorems -/

/-- C1: `apply(world, resources)` executes every queued command exactly
once, in strict FIFO enqueue order — its outcome equals the left-to-right
monadic fold of `Command.dispatch` (which sends `WriteWorld` commands
against the world and `WriteResources` commands against the resources) over
the enqueued command list — and whenever apply returns successfully the
shared buffer is empty. -/
theorem apply_fifo_exactly_once (c : Commands) (w : World) (r : Resources)
    (a : Alloc) :
    (c.apply w r a).1 =
      c.commands.commands.foldlM
        (fun s cmd => Command.dispatch cmd s.1 s.2.1 s.2.2) (w, r, a)
    ∧ ∀ s, (c.apply w r a).1 = .ok s →
        ((c.apply w r a).2).commands.commands = [] := by
  constructor
  · exact applyDrain_fst_eq_foldlM _ _ _ _
  · intro s hs
    exact applyDrain_fst_ok_snd_nil _ _ _ _ s hs

/-- Witness for C1: a concrete queue of one world command and one resource
command applies successfully and leaves the buffer empty. -/
theorem apply_fifo_exactly_once_witness :
    (Commands.apply
        ⟨⟨[Command.writeWorld (WorldWriter.spawnAsEntity 0 [⟨0, 1⟩]),
           Command.writeResources (ResourcesWriter.insertResource ⟨1, 2⟩)],
          some 0⟩⟩ ⟨[]⟩ ⟨[], []⟩ 1).1
      = .ok (⟨[(0, [(0, 1)])]⟩, ⟨[(1, 2)], []⟩, 1)
    ∧ ((Commands.apply
        ⟨⟨[Command.writeWorld (WorldWriter.spawnAsEntity 0 [⟨0, 1⟩]),
           Command.writeResources (ResourcesWriter.insertResource ⟨1, 2⟩)],
          some 0⟩⟩ ⟨[]⟩ ⟨[], []⟩ 1).2).commands.commands = [] :=
  ⟨rfl,
   (apply_fifo_exactly_once
      ⟨⟨[Command.writeWorld (WorldWriter.spawnAsEntity 0 [⟨0, 1⟩]),
         Command.writeResources (ResourcesWriter.insertResource ⟨1, 2⟩)],
        some 0⟩⟩ ⟨[]⟩ ⟨[], []⟩ 1).2
     (⟨[(0, [(0, 1)])]⟩, ⟨[(1, 2)], []⟩, 1) rfl⟩

/-- C3: on a buffer whose cursor is unset (no prior spawn), `with` and
`with_bundle` fail immediately at enqueue time with MissingEntityContext —
on the shared handle and on the underlying buffer alike — before any apply
occurs; no command is enqueued, since the error is raised instead of a
buffer state. -/
theorem with_requires_entity_context (c : Commands) (comp : ComponentVal)
    (b : Bundle) (h : c.commands.current_entity = none) :
    c.withComp comp = .error .missingEntityContext
    ∧ c.with_bundle b = .error .missingEntityContext
    ∧ c.commands.withComp comp = .error .missingEntityContext
    ∧ c.commands.with_bundle b = .error .missingEntityContext := by
  refine ⟨?_, ?_, ?_, ?_⟩ <;>
    simp [Commands.withComp, Commands.with_bundle,
      CommandsInternal.withComp, CommandsInternal.with_bundle, h, Except.map]

/-- Witness for C3: a fresh handle rejects `with` at enqueue time. -/
theorem with_requires_entity_context_witness :
    Commands.withComp ⟨⟨[], none⟩⟩ ⟨0, 0⟩
        = .error .missingEntityContext
    ∧ Commands.with_bundle ⟨⟨[], none⟩⟩ [⟨0, 0⟩]
        = .error .missingEntityContext :=
  ⟨(with_requires_entity_context ⟨⟨[], none⟩⟩ ⟨0, 0⟩ [⟨0, 0⟩] rfl).1,
   (with_requires_entity_context ⟨⟨[], none⟩⟩ ⟨0, 0⟩ [⟨0, 0⟩] rfl).2.1⟩

/-- C5: during apply each command is removed from the buffer before the
next is processed: when a command's dispatch fails fatally after a
successfully drained prefix, apply returns that error and the buffer holds
exactly the commands enqueued after the failing one — no already-applied
command remains, so none can be re-executed. -/
theorem command_removed_before_next_processed (c : Commands)
    (cs1 cs2 : List Command) (cmd : Command) (w : World) (r : Resources)
    (a : Alloc) (w' : World) (r' : Resources) (a' : Alloc) (err : ApplyError)
    (hq : c.commands.commands = cs1 ++ cmd :: cs2)
    (h1 : (applyDrain cs1 w r a).1 = .ok (w', r', a'))
    (h2 : cmd.dispatch w' r' a' = .error err) :
    (c.apply w r a).1 = .error err
    ∧ ((c.apply w r a).2).commands.commands = cs2 := by
  have hfail := applyDrain_append_fail cs1 cs2 cmd w r a w' r' a' err h1 h2
  constructor
  · show (applyDrain c.commands.commands w r a).1 = _
    rw [hq, hfail]
  · show (applyDrain c.commands.commands w r a).2 = _
    rw [hq, hfail]

/-- Witness for C5: a despawn of an absent entity fails after a previously
applied command was already removed; only the later command remains. -/
theorem command_removed_before_next_processed_witness :
    (Commands.apply
        ⟨⟨[Command.writeWorld (WorldWriter.spawnAsEntity 0 [⟨0, 1⟩]),
           Command.writeWorld (WorldWriter.despawnW 9),
           Command.writeResources (ResourcesWriter.insertResource ⟨1, 2⟩)],
          some 0⟩⟩ ⟨[]⟩ ⟨[], []⟩ 1).1
      = .error .applyTargetMissing
    ∧ ((Commands.apply
        ⟨⟨[Command.writeWorld (WorldWriter.spawnAsEntity 0 [⟨0, 1⟩]),
           Command.writeWorld (WorldWriter.despawnW 9),
           Command.writeResources (ResourcesWriter.insertResource ⟨1, 2⟩)],
          some 0⟩⟩ ⟨[]⟩ ⟨[], []⟩ 1).2).commands.commands
      = [Command.writeResources (ResourcesWriter.insertResource ⟨1, 2⟩)] :=
  command_removed_before_next_processed
    ⟨⟨[Command.writeWorld (WorldWriter.spawnAsEntity 0 [⟨0, 1⟩]),
       Command.writeWorld (WorldWriter.despawnW 9),
       Command.writeResources (ResourcesWriter.insertResource ⟨1, 2⟩)],
      some 0⟩⟩
    [Command.writeWorld (WorldWriter.spawnAsEntity 0 [⟨0, 1⟩])]
    [Command.writeResources (ResourcesWriter.insertResource ⟨1, 2⟩)]
    (Command.writeWorld (WorldWriter.despawnW 9))
    ⟨[]⟩ ⟨[], []⟩ 1 ⟨[(0, [(0, 1)])]⟩ ⟨[], []⟩ 1 .applyTargetMissing
    rfl rfl rfl

/-- C2: if, at the moment it is processed during apply, a Despawn, Insert
or InsertOne command targets an entity absent from storage, the entire
drain aborts immediately with the fatal ApplyTargetMissing condition, and
every command enqueued after the failing one is never applied: it is left
unprocessed in the buffer while apply returns the error. -/
theorem apply_aborts_on_missing_target (c : Commands)
    (cs1 cs2 : List Command) (wr : WorldWriter) (w : World) (r : Resources)
    (a : Alloc) (w' : World) (r' : Resources) (a' : Alloc)
    (hq : c.commands.commands = cs1 ++ Command.writeWorld wr :: cs2)
    (h1 : (applyDrain cs1 w r a).1 = .ok (w', r', a'))
    (h2 : wr.fatalOn w') :
    (c.apply w r a).1 = .error .applyTargetMissing
    ∧ ((c.apply w r a).2).commands.commands = cs2 := by
  have hd := dispatch_error_of_fatalOn wr w' r' a' h2
  have hfail := applyDrain_append_fail cs1 cs2 (Command.writeWorld wr)
    w r a w' r' a' .applyTargetMissing h1 hd
  constructor
  · show (applyDrain c.commands.commands w r a).1 = _
    rw [hq, hfail]
  · show (applyDrain c.commands.commands w r a).2 = _
    rw [hq, hfail]

/-- Witness for C2: an `Insert` on a never-spawned entity aborts the drain
and the commands after it are still queued, unapplied. -/
theorem apply_aborts_on_missing_target_witness :
    (Commands.apply
        ⟨⟨[Command.writeWorld (WorldWriter.insertW 5 [⟨0, 1⟩]),
           Command.writeWorld (WorldWriter.spawnAsEntity 0 [⟨0, 1⟩])],
          none⟩⟩ ⟨[]⟩ ⟨[], []⟩ 0).1
      = .error .applyTargetMissing
    ∧ ((Commands.apply
        ⟨⟨[Command.writeWorld (WorldWriter.insertW 5 [⟨0, 1⟩]),
           Command.writeWorld (WorldWriter.spawnAsEntity 0 [⟨0, 1⟩])],
          none⟩⟩ ⟨[]⟩ ⟨[], []⟩ 0).2).commands.commands
      = [Command.writeWorld (WorldWriter.spawnAsEntity 0 [⟨0, 1⟩])] :=
  apply_aborts_on_missing_target
    ⟨⟨[Command.writeWorld (WorldWriter.insertW 5 [⟨0, 1⟩]),
       Command.writeWorld (WorldWriter.spawnAsEntity 0 [⟨0, 1⟩])],
      none⟩⟩
    [] [Command.writeWorld (WorldWriter.spawnAsEntity 0 [⟨0, 1⟩])]
    (WorldWriter.insertW 5 [⟨0, 1⟩])
    ⟨[]⟩ ⟨[], []⟩ 0 ⟨[]⟩ ⟨[], []⟩ 0
    rfl rfl rfl

/-- C9: `spawn(bundle)` is exactly the allocation of a fresh entity
identifier followed by `spawn_as_entity` with that identifier and the same
bundle — on the shared handle and on the underlying buffer alike — so it
enqueues the same `SpawnAsEntity` command and sets the cursor to the new
identifier. -/
theorem spawn_refines_spawn_as_entity (c : Commands) (cb : CommandsInternal)
    (a : Alloc) (b : Bundle) :
    c.spawn a b = (c.spawn_as_entity (allocEntity a).1 b, (allocEntity a).2)
    ∧ cb.spawn a b
        = (cb.spawn_as_entity (allocEntity a).1 b, (allocEntity a).2)
    ∧ ((c.spawn a b).1).commands.commands
        = c.commands.commands
          ++ [Command.writeWorld (WorldWriter.spawnAsEntity (allocEntity a).1 b)]
    ∧ ((c.spawn a b).1).commands.current_entity = some (allocEntity a).1 :=
  ⟨rfl, rfl, rfl, rfl⟩

/-- C8: every mutation-queuing call on the shared handle that succeeds
appends exactly one command at the end of the underlying buffer, leaving
all previously queued commands and their relative order unchanged. -/
theorem enqueue_appends_exactly_one (c : Commands) (e : Entity) (b : Bundle)
    (bs : List Bundle) (comp : ComponentVal) (v : ResourceVal)
    (sid : SystemId) (a : Alloc) :
    ((c.spawn a b).1).commands.commands
        = c.commands.commands
          ++ [Command.writeWorld (WorldWriter.spawnAsEntity (allocEntity a).1 b)]
    ∧ (c.spawn_as_entity e b).commands.commands
        = c.commands.commands
          ++ [Command.writeWorld (WorldWriter.spawnAsEntity e b)]
    ∧ (c.spawn_batch bs).commands.commands
        = c.commands.commands
          ++ [Command.writeWorld (WorldWriter.spawnBatch bs)]
    ∧ (c.despawn e).commands.commands
        = c.commands.commands
          ++ [Command.writeWorld (WorldWriter.despawnW e)]
    ∧ (c.insert e b).commands.commands
        = c.commands.commands
          ++ [Command.writeWorld (WorldWriter.insertW e b)]
    ∧ (c.insert_one e comp).commands.commands
        = c.commands.commands
          ++ [Command.writeWorld (WorldWriter.insertOne e comp)]
    ∧ (c.insert_resource v).commands.commands
        = c.commands.commands
          ++ [Command.writeResources (ResourcesWriter.insertResource v)]
    ∧ (c.insert_local_resource sid v).commands.commands
        = c.commands.commands
          ++ [Command.writeResources
                (ResourcesWriter.insertLocalResource sid v)]
    ∧ (∀ e0, c.commands.current_entity = some e0 →
        c.withComp comp = .ok ⟨{ c.commands with commands :=
          c.commands.commands
            ++ [Command.writeWorld (WorldWriter.insertOne e0 comp)] }⟩)
    ∧ (∀ e0, c.commands.current_entity = some e0 →
        c.with_bundle b = .ok ⟨{ c.commands with commands :=
          c.commands.commands
            ++ [Command.writeWorld (WorldWriter.insertW e0 b)] }⟩) := by
  refine ⟨rfl, rfl, rfl, rfl, rfl, rfl, rfl, rfl, ?_, ?_⟩
  · intro e0 h0
    simp [Commands.withComp, CommandsInternal.withComp, h0, Except.map]
  · intro e0 h0
    simp [Commands.with_bundle, CommandsInternal.with_bundle, h0, Except.map]

/-- Witness for C8: `with` on a handle whose cursor is set appends exactly
one `InsertOne` command behind the queued one. -/
theorem enqueue_appends_exactly_one_witness :
    Commands.withComp
        ⟨⟨[Command.writeWorld (WorldWriter.spawnAsEntity 7 [⟨0, 1⟩])],
          some 7⟩⟩ ⟨1, 2⟩
      = .ok ⟨⟨[Command.writeWorld (WorldWriter.spawnAsEntity 7 [⟨0, 1⟩]),
               Command.writeWorld (WorldWriter.insertOne 7 ⟨1, 2⟩)],
              some 7⟩⟩ :=
  (enqueue_appends_exactly_one
      ⟨⟨[Command.writeWorld (WorldWriter.spawnAsEntity 7 [⟨0, 1⟩])],
        some 7⟩⟩ 0 [] [] ⟨1, 2⟩ ⟨0, 0⟩ 0 0).2.2.2.2.2.2.2.2.1 7 rfl

/-- C10: only `spawn` and `spawn_as_entity` modify the buffer's cursor: the
other mutation-queuing calls and `apply` leave `current_entity` unchanged,
so a later cursor-dependent call still targets the most recently spawned
entity of the buffer. -/
theorem cursor_frame_ops (c : Commands) (e : Entity) (b : Bundle)
    (bs : List Bundle) (comp : ComponentVal) (v : ResourceVal)
    (sid : SystemId) (w : World) (r : Resources) (a : Alloc) :
    (c.spawn_batch bs).commands.current_entity = c.commands.current_entity
    ∧ (c.despawn e).commands.current_entity = c.commands.current_entity
    ∧ (c.insert e b).commands.current_entity = c.commands.current_entity
    ∧ (c.insert_one e comp).commands.current_entity
        = c.commands.current_entity
    ∧ (c.insert_resource v).commands.current_entity
        = c.commands.current_entity
    ∧ (c.insert_local_resource sid v).commands.current_entity
        = c.commands.current_entity
    ∧ (∀ c', c.withComp comp = .ok c' →
        c'.commands.current_entity = c.commands.current_entity)
    ∧ (∀ c', c.with_bundle b = .ok c' →
        c'.commands.current_entity = c.commands.current_entity)
    ∧ ((c.apply w r a).2).commands.current_entity = c.commands.current_entity
    ∧ (c.spawn_as_entity e b).commands.current_entity = some e
    ∧ ((c.spawn a b).1).commands.current_entity = some (allocEntity a).1 := by
  refine ⟨rfl, rfl, rfl, rfl, rfl, rfl, ?_, ?_, rfl, rfl, rfl⟩
  · intro c' h
    cases h0 : c.commands.current_entity with
    | none => simp [Commands.withComp, CommandsInternal.withComp, h0, Except.map] at h
    | some e0 =>
      simp [Commands.withComp, CommandsInternal.withComp, h0, Except.map] at h
      rw [← h]
  · intro c' h
    cases h0 : c.commands.current_entity with
    | none => simp [Commands.with_bundle, CommandsInternal.with_bundle, h0, Except.map] at h
    | some e0 =>
      simp [Commands.with_bundle, CommandsInternal.with_bundle, h0, Except.map] at h
      rw [← h]

/-- Witness for C10: a `with` after a spawn leaves the cursor where the
spawn put it. -/
theorem cursor_frame_ops_witness :
    Commands.withComp ⟨⟨[], some 3⟩⟩ ⟨1, 2⟩
      = .ok ⟨⟨[Command.writeWorld (WorldWriter.insertOne 3 ⟨1, 2⟩)], some 3⟩⟩
    ∧ (⟨⟨[Command.writeWorld (WorldWriter.insertOne 3 ⟨1, 2⟩)], some 3⟩⟩
        : Commands).commands.current_entity
      = (⟨⟨[], some 3⟩⟩ : Commands).commands.current_entity :=
  ⟨rfl,
   (cursor_frame_ops ⟨⟨[], some 3⟩⟩ 0 [] [] ⟨1, 2⟩ ⟨0, 0⟩ 0 ⟨[]⟩ ⟨[], []⟩
      0).2.2.2.2.2.2.1
     ⟨⟨[Command.writeWorld (WorldWriter.insertOne 3 ⟨1, 2⟩)], some 3⟩⟩ rfl⟩

/-- C6: `spawn_batch(bundles)` enqueues one bulk command carrying exactly
the given bundle sequence, with no world operation at enqueue time.  At
apply time it spawns exactly `len(bundles)` entities, in the sequence's
order (the i-th fresh identifier receives the i-th bundle): before apply
the fresh identifiers are not queryable (their lookup is `none` whenever
storage only holds identifiers below the allocation counter, the
allocator's invariant), and immediately after apply every one of them is
queryable. -/
theorem spawn_batch_enqueues_all (c : Commands) (bs : List Bundle)
    (w : World) (r : Resources) (a : Alloc) :
    (c.spawn_batch bs).commands.commands
        = c.commands.commands
          ++ [Command.writeWorld (WorldWriter.spawnBatch bs)]
    ∧ (w.spawn_batch a bs).2.1.length = bs.length
    ∧ (w.spawn_batch a bs).2.1 = List.range' a bs.length
    ∧ (Command.writeWorld (WorldWriter.spawnBatch bs)).dispatch w r a
        = .ok ((w.spawn_batch a bs).1, r, (w.spawn_batch a bs).2.2)
    ∧ ((∀ p ∈ w.entities, p.1 < a) → ∀ i, i < bs.length →
        w.lookup (a + i) = none)
    ∧ (∀ i, (hi : i < bs.length) →
        ((w.spawn_batch a bs).1).lookup (a + i)
          = some (Row.insertAll [] (bs.get ⟨i, hi⟩))) := by
  refine ⟨rfl, ?_, spawn_batch_entities w a bs, rfl, ?_, ?_⟩
  · rw [spawn_batch_entities w a bs, List.length_range']
  · intro hw i _hi
    exact lookup_none_of_lt_alloc w a (a + i) hw (Nat.le_add_right a i)
  · intro i hi
    exact spawn_batch_lookup w a bs i hi

/-- Witness for C6: a two-bundle batch on an empty world spawns entities 0
and 1; entity 1 is absent before apply and queryable after. -/
theorem spawn_batch_enqueues_all_witness :
    World.lookup ⟨[]⟩ (0 + 1) = none
    ∧ (World.spawn_batch ⟨[]⟩ 0 [[⟨0, 1⟩], [⟨0, 2⟩]]).1.lookup (0 + 1)
        = some [(0, 2)]
    ∧ (World.spawn_batch ⟨[]⟩ 0 [[⟨0, 1⟩], [⟨0, 2⟩]]).2.1.length = 2 :=
  ⟨(spawn_batch_enqueues_all ⟨⟨[], none⟩⟩ [[⟨0, 1⟩], [⟨0, 2⟩]] ⟨[]⟩
      ⟨[], []⟩ 0).2.2.2.2.1
     (fun p hp => absurd hp (List.not_mem_nil p)) 1 (by decide),
   (spawn_batch_enqueues_all ⟨⟨[], none⟩⟩ [[⟨0, 1⟩], [⟨0, 2⟩]] ⟨[]⟩
      ⟨[], []⟩ 0).2.2.2.2.2 1 (by decide),
   (spawn_batch_enqueues_all ⟨⟨[], none⟩⟩ [[⟨0, 1⟩], [⟨0, 2⟩]] ⟨[]⟩
      ⟨[], []⟩ 0).2.1⟩

/-- C7: enqueueing `insert_local_resource(idA, v)` then
`insert_local_resource(idB, v)` appends the two commands in order, and
applying them leaves two independent singletons for distinct `idA ≠ idB`:
both are retrievable afterwards, and the global singleton of the same type
is untouched. -/
theorem insert_local_resource_independent (c : Commands)
    (idA idB : SystemId) (v : ResourceVal) (w : World) (r : Resources)
    (a : Alloc) (h : idA ≠ idB) :
    ((c.insert_local_resource idA v).insert_local_resource idB v).commands.commands
        = c.commands.commands
          ++ [Command.writeResources (ResourcesWriter.insertLocalResource idA v),
              Command.writeResources (ResourcesWriter.insertLocalResource idB v)]
    ∧ applyDrain
        [Command.writeResources (ResourcesWriter.insertLocalResource idA v),
         Command.writeResources (ResourcesWriter.insertLocalResource idB v)]
        w r a
        = (.ok (w, (r.insert_local idA v).insert_local idB v, a), [])
    ∧ ((r.insert_local idA v).insert_local idB v).get_local idA v.ty
        = some v.val
    ∧ ((r.insert_local idA v).insert_local idB v).get_local idB v.ty
        = some v.val
    ∧ ∀ t, ((r.insert_local idA v).insert_local idB v).get t = r.get t := by
  refine ⟨?_, rfl, ?_, ?_, fun t => rfl⟩
  · show (c.commands.commands
        ++ [Command.writeResources (ResourcesWriter.insertLocalResource idA v)])
        ++ [Command.writeResources (ResourcesWriter.insertLocalResource idB v)]
      = _
    rw [List.append_assoc]
    rfl
  · show alGet (alSet (alSet r.locals (idA, v.ty) v.val) (idB, v.ty) v.val)
        (idA, v.ty) = some v.val
    rw [alGet_alSet_ne _ _ _ _ (by simp [h])]
    exact alGet_alSet_same _ _ _
  · exact alGet_alSet_same _ _ _

/-- Witness for C7: system ids 0 and 1 each keep their own local singleton
of type 2 with value 9. -/
theorem insert_local_resource_independent_witness :
    ((Resources.insert_local (Resources.insert_local ⟨[(2, 4)], []⟩ 0 ⟨2, 9⟩)
        1 ⟨2, 9⟩)).get_local 0 2 = some 9
    ∧ ((Resources.insert_local (Resources.insert_local ⟨[(2, 4)], []⟩ 0 ⟨2, 9⟩)
        1 ⟨2, 9⟩)).get_local 1 2 = some 9
    ∧ ((Resources.insert_local (Resources.insert_local ⟨[(2, 4)], []⟩ 0 ⟨2, 9⟩)
        1 ⟨2, 9⟩)).get 2 = Resources.get ⟨[(2, 4)], []⟩ 2 :=
  ⟨(insert_local_resource_independent ⟨⟨[], none⟩⟩ 0 1 ⟨2, 9⟩ ⟨[]⟩
      ⟨[(2, 4)], []⟩ 0 (by decide)).2.2.1,
   (insert_local_resource_independent ⟨⟨[], none⟩⟩ 0 1 ⟨2, 9⟩ ⟨[]⟩
      ⟨[(2, 4)], []⟩ 0 (by decide)).2.2.2.1,
   (insert_local_resource_independent ⟨⟨[], none⟩⟩ 0 1 ⟨2, 9⟩ ⟨[]⟩
      ⟨[(2, 4)], []⟩ 0 (by decide)).2.2.2.2 2⟩

/-- C4: `spawn(bundle)` immediately followed by `with(component)` on the
same handle (no apply in between) enqueues an `InsertOne` targeting exactly
the identifier the spawn command will materialize; consequently, whenever
the previously queued commands drain successfully, apply succeeds and that
entity afterwards holds the bundle's components and the extra component
(stated for type keys pairwise distinct, since the storage is type-keyed
and a same-typed insert overwrites). -/
theorem spawn_then_with_same_entity (c c2 : Commands) (a0 aA : Alloc)
    (b : Bundle) (comp : ComponentVal) (w : World) (r : Resources)
    (w0 : World) (r0 : Resources) (a1 : Alloc)
    (hw : ((c.spawn a0 b).1).withComp comp = .ok c2)
    (hpre : applyDrain c.commands.commands w r aA = (.ok (w0, r0, a1), []))
    (hnd : (b.map ComponentVal.ty).Nodup)
    (hcomp : comp.ty ∉ b.map ComponentVal.ty) :
    c2.commands.commands
        = c.commands.commands
          ++ [Command.writeWorld (WorldWriter.spawnAsEntity a0 b),
              Command.writeWorld (WorldWriter.insertOne a0 comp)]
    ∧ ∃ w2,
        (c2.apply w r aA).1 = .ok (w2, r0, a1)
        ∧ w2.lookup a0 = some ((Row.insertAll [] b).setComp comp)
        ∧ ((Row.insertAll [] b).setComp comp).getComp comp.ty = some comp.val
        ∧ ∀ x ∈ b,
            ((Row.insertAll [] b).setComp comp).getComp x.ty = some x.val := by
  have hc2 : c2 = ⟨⟨(c.commands.commands
        ++ [Command.writeWorld (WorldWriter.spawnAsEntity a0 b)])
        ++ [Command.writeWorld (WorldWriter.insertOne a0 comp)], some a0⟩⟩ := by
    have hw' : Except.ok (⟨⟨(c.commands.commands
          ++ [Command.writeWorld (WorldWriter.spawnAsEntity a0 b)])
          ++ [Command.writeWorld (WorldWriter.insertOne a0 comp)],
          some a0⟩⟩ : Commands) = Except.ok c2 := hw
    injection hw' with h2
    exact h2.symm
  subst hc2
  constructor
  · show (c.commands.commands
        ++ [Command.writeWorld (WorldWriter.spawnAsEntity a0 b)])
        ++ [Command.writeWorld (WorldWriter.insertOne a0 comp)] = _
    rw [List.append_assoc]
    rfl
  · refine ⟨World.setRow (World.setRow w0 a0 (Row.insertAll [] b)) a0
        ((Row.insertAll [] b).setComp comp), ?_, ?_, ?_, ?_⟩
    · have hpre1 : (applyDrain c.commands.commands w r aA).1
          = .ok (w0, r0, a1) := by rw [hpre]
      have hD1 : (Command.writeWorld
            (WorldWriter.spawnAsEntity a0 b)).dispatch w0 r0 a1
          = .ok (World.setRow w0 a0 (Row.insertAll [] b), r0, a1) := rfl
      have hD2 : (Command.writeWorld
            (WorldWriter.insertOne a0 comp)).dispatch
            (World.setRow w0 a0 (Row.insertAll [] b)) r0 a1
          = .ok (World.setRow (World.setRow w0 a0 (Row.insertAll [] b)) a0
              ((Row.insertAll [] b).setComp comp), r0, a1) := by
        simp [Command.dispatch, WorldWriter.write, World.insert,
          World.lookup_setRow_same, Except.map, Row.insertAll]
      show (applyDrain ((c.commands.commands
          ++ [Command.writeWorld (WorldWriter.spawnAsEntity a0 b)])
          ++ [Command.writeWorld (WorldWriter.insertOne a0 comp)]) w r aA).1
          = _
      rw [List.append_assoc]
      rw [applyDrain_append_ok _ _ _ _ _ _ _ _ hpre1]
      simp only [List.cons_append, List.nil_append, applyDrain, hD1, hD2]
    · exact World.lookup_setRow_same _ _ _
    · exact Row.getComp_setComp_same _ _
    · intro x hx
      have hxne : x.ty ≠ comp.ty := by
        intro he
        apply hcomp
        rw [← he]
        exact List.mem_map_of_mem ComponentVal.ty hx
      rw [Row.getComp_setComp_ne _ _ _ hxne]
      exact Row.getComp_insertAll_mem [] b x hnd hx

/-- Witness for C4: on a fresh handle, spawning `[⟨0,1⟩, ⟨1,2⟩]` and adding
`⟨2,3⟩` with `with` targets entity 0, and after apply entity 0 holds all
three components. -/
theorem spawn_then_with_same_entity_witness :
    (⟨⟨[Command.writeWorld (WorldWriter.spawnAsEntity 0 [⟨0, 1⟩, ⟨1, 2⟩]),
        Command.writeWorld (WorldWriter.insertOne 0 ⟨2, 3⟩)], some 0⟩⟩
      : Commands).commands.commands
      = ([] : List Command)
        ++ [Command.writeWorld (WorldWriter.spawnAsEntity 0 [⟨0, 1⟩, ⟨1, 2⟩]),
            Command.writeWorld (WorldWriter.insertOne 0 ⟨2, 3⟩)]
    ∧ ∃ w2,
        ((⟨⟨[Command.writeWorld (WorldWriter.spawnAsEntity 0 [⟨0, 1⟩, ⟨1, 2⟩]),
             Command.writeWorld (WorldWriter.insertOne 0 ⟨2, 3⟩)], some 0⟩⟩
           : Commands).apply ⟨[]⟩ ⟨[], []⟩ 1).1
          = .ok (w2, ⟨[], []⟩, 1)
        ∧ w2.lookup 0
            = some ((Row.insertAll [] [⟨0, 1⟩, ⟨1, 2⟩]).setComp ⟨2, 3⟩)
        ∧ ((Row.insertAll [] [⟨0, 1⟩, ⟨1, 2⟩]).setComp ⟨2, 3⟩).getComp 2
            = some 3
        ∧ ∀ x ∈ ([⟨0, 1⟩, ⟨1, 2⟩] : Bundle),
            ((Row.insertAll [] [⟨0, 1⟩, ⟨1, 2⟩]).setComp ⟨2, 3⟩).getComp x.ty
              = some x.val :=
  spawn_then_with_same_entity ⟨⟨[], none⟩⟩
    ⟨⟨[Command.writeWorld (WorldWriter.spawnAsEntity 0 [⟨0, 1⟩, ⟨1, 2⟩]),
       Command.writeWorld (WorldWriter.insertOne 0 ⟨2, 3⟩)], some 0⟩⟩
    0 1 [⟨0, 1⟩, ⟨1, 2⟩] ⟨2, 3⟩ ⟨[]⟩ ⟨[], []⟩ ⟨[]⟩ ⟨[], []⟩ 1
    rfl rfl (by decide) (by decide)

end BevyEcs
